import Mathlib

set_option linter.unusedVariables false
set_option maxRecDepth 4000

/-!
Verification of the Agentic RAG system's core components against its
natural-language specification.  The Python sources are shallowly embedded:
pure functions become Lean functions, external collaborators (the embedding
model, the language model, the Chroma vector store, the Python `json` and
`exec` facilities) become function parameters, and observable side effects
(embedding calls, LLM calls, collection writes) are recorded in an explicit
effect trace.
-/

deriving instance DecidableEq for Except

-- ── Configuration constants (src/config.py) ─────────────────────────

def MAX_CHUNK_CHARS : Nat := 2048

def CHUNK_OVERLAP_CHARS : Nat := 200

def TOP_K_TOOLS : Nat := 3

def TOP_K_CHUNKS : Nat := 5

def MAX_REASONING_STEPS : Nat := 3

-- ── Python string helpers ───────────────────────────────────────────

-- Whitespace characters recognised by Python str.strip (ASCII subset).
def isSpaceC (c : Char) : Bool :=
  c == ' ' || c == '\t' || c == '\n' || c == '\r' || c == '\x0b' || c == '\x0c'

-- Python str.strip() on a character list.
def pyStrip (l : List Char) : List Char :=
  ((l.dropWhile isSpaceC).reverse.dropWhile isSpaceC).reverse

-- Python str.strip() on a string.
def pyStripS (s : String) : String :=
  String.mk (pyStrip s.toList)

-- Python sep.join(parts).
def joinSep (sep : String) : List String → String
  | [] => ""
  | [s] => s
  | s :: rest => s ++ sep ++ joinSep sep rest

-- Index of the last occurrence of a character (Python str.rfind, as Option).
def pyRfind (cs : List Char) (c : Char) : Option Nat :=
  (cs.reverse.findIdx? (· == c)).map (fun j => cs.length - 1 - j)

-- ── Chunking (src/document_processor.py, _chunk_text) ───────────────

/-- One iteration per fuel unit of the Python while-loop

    while start < len(text):
        chunk = text[start : start + chunk_size]
        if chunk.strip(): chunks.append(chunk.strip())
        start += chunk_size - overlap

The fuel argument only bounds the iteration count; `text.length` units are
enough whenever `overlap < chunk_size` (the loop advances by at least one
character per iteration), which every claim assumes.  For
`overlap >= chunk_size` the Python loop does not terminate. -/
def chunkLoop (text : List Char) (chunk_size overlap start fuel : Nat) :
    List (List Char) :=
  match fuel with
  | 0 => []
  | Nat.succ fuel =>
    if start < text.length then
      if (pyStrip ((text.drop start).take chunk_size)).isEmpty then
        chunkLoop text chunk_size overlap (start + (chunk_size - overlap)) fuel
      else
        pyStrip ((text.drop start).take chunk_size) ::
          chunkLoop text chunk_size overlap (start + (chunk_size - overlap)) fuel
    else []

/-- `_chunk_text(text, chunk_size, overlap)`: overlapping character windows;
`return chunks if chunks else [text.strip() or "(empty document)"]`. -/
def _chunk_text (text : String) (chunk_size overlap : Nat) : List String :=
  if (chunkLoop text.toList chunk_size overlap 0 text.toList.length).isEmpty then
    [String.mk (if (pyStrip text.toList).isEmpty then "(empty document)".toList
                else pyStrip text.toList)]
  else
    (chunkLoop text.toList chunk_size overlap 0 text.toList.length).map String.mk

-- ── The spec's chunk-count formula (for claim C1) ───────────────────

-- Ceiling division over the integers (for the spec's formula, which can go
-- nonpositive when L <= O).
def ceilDivInt (a b : Int) : Int := -((-a).fdiv b)

/-- Modelled from the spec: the spec's claimed chunk count for a text of
length L, chunk size C and overlap O, namely ceil((L - O) / (C - O)).
This definition follows the spec's words, to be compared with the count
produced by `_chunk_text` (which is translated from the source). -/
def specChunkCountFormula (L C O : Nat) : Int :=
  ceilDivInt ((L : Int) - (O : Int)) ((C : Int) - (O : Int))

-- ── Path helpers (Python pathlib semantics) ─────────────────────────

-- Path(name).suffix for a base name: the part from the last dot on,
-- empty if the dot is absent, leading, or trailing.
def pathSuffix (name : String) : String :=
  let cs := name.toList
  match pyRfind cs '.' with
  | some i => if 0 < i ∧ i < cs.length - 1 then String.mk (cs.drop i) else ""
  | none => ""

-- Path(name).stem for a base name: the name with its suffix removed.
def pathStem (name : String) : String :=
  let cs := name.toList
  String.mk (cs.take (cs.length - (pathSuffix name).toList.length))

def strToLower (s : String) : String :=
  String.mk (s.toList.map Char.toLower)

-- ── _slugify (src/document_processor.py) ────────────────────────────

def isSlugChar (c : Char) : Bool :=
  (decide ('a' ≤ c ∧ c ≤ 'z')) || (decide ('0' ≤ c ∧ c ≤ '9'))

-- re.sub(r"[^a-z0-9]+", "_", s): each maximal run of non-[a-z0-9]
-- characters becomes a single underscore.  The Bool flag records whether
-- the previous character was part of such a run.
def subNonAlnumSkip : Bool → List Char → List Char
  | _, [] => []
  | inRun, c :: rest =>
    if isSlugChar c then c :: subNonAlnumSkip false rest
    else if inRun then subNonAlnumSkip true rest
    else '_' :: subNonAlnumSkip true rest

def subNonAlnum (l : List Char) : List Char := subNonAlnumSkip false l

-- str.strip("_")
def stripUnd (l : List Char) : List Char :=
  ((l.dropWhile (· == '_')).reverse.dropWhile (· == '_')).reverse

/-- `_slugify(name)`: lowercase the stem, collapse non-alphanumeric runs to
underscores, strip leading/trailing underscores, pad to length >= 3 with
"_doc", truncate to 63 characters. -/
def _slugify (name : String) : String :=
  let slug := String.mk (stripUnd (subNonAlnum ((pathStem name).toList.map Char.toLower)))
  let slug := if slug.toList.length < 3 then slug ++ "_doc" else slug
  String.mk (slug.toList.take 63)

-- ── External collaborators for the ingestion pipeline ───────────────

/-- A raw file: its base name (with extension) and its byte content. -/
structure FileModel where
  name : String
  bytes : List Nat
deriving Repr, DecidableEq

/-- External collaborators used by the document processor:
`hash` models hashlib.md5(...).hexdigest() over the file bytes, `llm` models
llm_chat with the default system prompt, `readPdf` models PyMuPDF text
extraction, `readText` models Path.read_text, and `analyzeTabular` models
`_analyze_tabular` (a pure pandas structure dump of the file).  All are
deterministic functions, matching the spec's collaborator model. -/
structure Env where
  hash : List Nat → String
  llm : String → String
  readPdf : FileModel → String
  readText : FileModel → String
  analyzeTabular : FileModel → String

-- ── _extract_text (src/document_processor.py) ───────────────────────

/-- The error the spec claims extraction raises on unknown extensions.  The
codomain of `_extract_text` includes it so the spec's claim can be stated;
the source never raises it. -/
inductive ExtractError where
  | unsupportedFormat (name : String)
deriving Repr, DecidableEq

/-- `_extract_text(file_path)`: dispatch on the lowercased suffix.  PDF via
PyMuPDF; .txt/.md/.csv via read_text; any other extension returns the
placeholder string `[Binary file: <name>]` (it does not raise). -/
def _extract_text (env : Env) (f : FileModel) : Except ExtractError String :=
  if strToLower (pathSuffix f.name) = ".pdf" then Except.ok (env.readPdf f)
  else if [".txt", ".md", ".csv"].contains (strToLower (pathSuffix f.name)) then
    Except.ok (env.readText f)
  else Except.ok ("[Binary file: " ++ f.name ++ "]")

-- ── Document metadata store (the "document-meta" collection) ────────

/-- One persisted metadata record, keyed by slug.  Python stores
`chunk_count` and `is_tabular` as strings (`str(n)`, `str(bool)`) and reads
them back with `int(...)` and `== "True"`; both round-trips are exact, so
the model keeps the typed values. -/
structure MetaEntry where
  summary : String
  file_name : String
  file_hash : String
  chunk_count : Nat
  collection_name : String
  is_tabular : Bool
deriving Repr, DecidableEq

abbrev MetaStore := List (String × MetaEntry)

def metaGet : MetaStore → String → Option MetaEntry
  | [], _ => none
  | (k, e) :: rest, s => if k = s then some e else metaGet rest s

def metaUpsert (store : MetaStore) (slug : String) (e : MetaEntry) : MetaStore :=
  (slug, e) :: (store : List (String × MetaEntry)).filter (fun p => decide (p.1 ≠ slug))

-- ── Observable side effects of ingestion ────────────────────────────

/-- The externally observable calls `_process_one` makes, in order:
embedding-model batch calls, LLM calls, chunk-collection writes, and
metadata upserts. -/
inductive Effect where
  | embed (texts : List String)
  | llm (prompt : String)
  | deleteCollection (name : String)
  | createCollection (name : String)
  | addChunks (collection : String) (ids : List String)
  | upsertMeta (slug : String)
deriving Repr, DecidableEq

/-- Which stored resource (chunk collection or metadata id) an effect
touches; embedding and LLM calls touch none. -/
def effectTouchesOnly (slug collName : String) : Effect → Prop
  | Effect.deleteCollection c => c = collName
  | Effect.createCollection c => c = collName
  | Effect.addChunks c _ => c = collName
  | Effect.upsertMeta s => s = slug
  | _ => True

-- ── DocumentInfo and _process_one ───────────────────────────────────

/-- The dataclass DocumentInfo (src/document_processor.py). -/
structure DocumentInfo where
  name : String
  slug : String
  summary : String
  chunk_count : Nat
  collection_name : String
  is_tabular : Bool
  file_path : Option String
deriving Repr, DecidableEq

-- The cached-record reconstruction on the idempotent-skip path.
def cachedInfo (f : FileModel) (slug collection_name : String) (entry : MetaEntry) :
    DocumentInfo :=
  { name := f.name
    slug := slug
    summary := entry.summary
    chunk_count := entry.chunk_count
    collection_name := collection_name
    is_tabular := entry.is_tabular
    file_path := some f.name }

def tabularSummaryPrompt (structure_summary : String) : String :=
  "You are a data analyst. Describe the contents of this dataset based on its schema and sample rows. Identify what entities, metrics, and time periods it covers.\n\nDATASET STRUCTURE:\n" ++ structure_summary ++ "\n\nDATASET DESCRIPTION:"

def narrativeSummaryPrompt (textSnippet : String) : String :=
  "You are a document analyst. Provide a comprehensive summary of the following document. Cover all major topics, themes, and key information.\n\nDOCUMENT TEXT (first 6000 chars):\n" ++ textSnippet ++ "\n\nSUMMARY:"

def strTake (s : String) (n : Nat) : String := String.mk (s.toList.take n)

-- The full (re)processing pipeline of `_process_one` (everything after the
-- idempotent-skip check).
def fullProcess (env : Env) (store : MetaStore) (f : FileModel) (is_tabular : Bool)
    (slug collection_name current_hash : String) :
    Except ExtractError (DocumentInfo × MetaStore × List Effect) :=
  if is_tabular then
    let structure_summary := env.analyzeTabular f
    let prompt := tabularSummaryPrompt structure_summary
    let summary := env.llm prompt
    let entry : MetaEntry :=
      { summary := summary, file_name := f.name, file_hash := current_hash
        chunk_count := 0, collection_name := collection_name, is_tabular := true }
    Except.ok
      ({ name := f.name, slug := slug, summary := summary, chunk_count := 0
         collection_name := collection_name, is_tabular := true, file_path := some f.name },
       metaUpsert store slug entry,
       [Effect.llm prompt, Effect.upsertMeta slug])
  else
    match _extract_text env f with
    | Except.error e => Except.error e
    | Except.ok full_text =>
      let chunks := _chunk_text full_text MAX_CHUNK_CHARS CHUNK_OVERLAP_CHARS
      let chunk_count := chunks.length
      let ids := (List.range chunk_count).map (fun i => slug ++ "_chunk_" ++ toString i)
      let prompt := narrativeSummaryPrompt (strTake full_text 6000)
      let summary := env.llm prompt
      let entry : MetaEntry :=
        { summary := summary, file_name := f.name, file_hash := current_hash
          chunk_count := chunk_count, collection_name := collection_name, is_tabular := false }
      Except.ok
        ({ name := f.name, slug := slug, summary := summary, chunk_count := chunk_count
           collection_name := collection_name, is_tabular := false, file_path := some f.name },
         metaUpsert store slug entry,
         [Effect.embed chunks, Effect.deleteCollection collection_name,
          Effect.createCollection collection_name, Effect.addChunks collection_name ids,
          Effect.llm prompt, Effect.upsertMeta slug])

/-- `_process_one(file_path, is_tabular)`: compute slug, collection name and
content hash; look up prior metadata by slug; if present with a matching
hash, return the cached record with no effects; otherwise run the full
pipeline and upsert the new metadata. -/
def _process_one (env : Env) (store : MetaStore) (f : FileModel) (is_tabular : Bool) :
    Except ExtractError (DocumentInfo × MetaStore × List Effect) :=
  match metaGet store (_slugify f.name) with
  | some entry =>
    if entry.file_hash = env.hash f.bytes then
      Except.ok
        (cachedInfo f (_slugify f.name)
          (if is_tabular then "tabular_data" else "doc_" ++ _slugify f.name) entry,
         store, [])
    else
      fullProcess env store f is_tabular (_slugify f.name)
        (if is_tabular then "tabular_data" else "doc_" ++ _slugify f.name)
        (env.hash f.bytes)
  | none =>
    fullProcess env store f is_tabular (_slugify f.name)
      (if is_tabular then "tabular_data" else "doc_" ++ _slugify f.name)
      (env.hash f.bytes)

-- ── Tool (src/tool_factory.py) ──────────────────────────────────────

/-- The dataclass Tool: a named, described, callable unit.  `func` models
the `function` field, a closure from a query string to a text result. -/
structure Tool where
  name : String
  description : String
  tool_type : String
  document_name : String
  func : String → String

-- Python dict built by `{t.name: t for t in tools}`: on duplicate names the
-- last tool wins, so lookup scans the reversed list.
def toolMapGet (ts : List Tool) (n : String) : Option Tool :=
  ts.reverse.find? (fun t => t.name == n)

-- info.summary[:200].replace("\n", " ")
def summarySnippet (summary : String) : String :=
  (String.mk (summary.toList.take 200)).replace "\n" " "

/-- `_make_summary_tool(info)`: the summary tool; its function closes over
the precomputed summary and returns it for every query. -/
def _make_summary_tool (info : DocumentInfo) : Tool :=
  { name := "summary_" ++ info.slug
    description :=
      "Get a high-level overview, themes, main topics, or general understanding of the document \x27" ++ info.name ++ "\x27. This document covers: " ++ summarySnippet info.summary ++ "..."
    tool_type := "summary"
    document_name := info.name
    func := fun _query => info.summary }

-- ── Pandas analysis tool (src/tool_factory.py, pandas_fn) ───────────

/-- The outcome of `exec(code, \x7b\x7d, local_vars)` with stdout captured:
either normal completion (the textual representation of the `result`
variable if it is not None, plus whatever was printed) or an exception
(whatever was printed, plus the formatted traceback). -/
inductive ExecOutcome where
  | ok (result : Option String) (captured : String)
  | err (captured : String) (tb : String)
deriving Repr, DecidableEq

def codingSystemPrompt : String := "You are a python coding machine. Output ONLY code."

def pandasPrompt (schema_str fname query : String) : String :=
  "You are a pandas data analysis assistant. \nI have a dataframe named \x60df\x60 from file \x27" ++ fname ++ "\x27.\nColumns: " ++ schema_str ++ "\n\nUSER QUERY: " ++ query ++ "\n\nWrite Python code to answer this query. \nRULES:\n1. Assume \x60df\x60 is already loaded.\n2. Store the final result in a variable named \x60result\x60.\n3. Do NOT use print() — just assign \x60result\x60.\n4. Return ONLY valid Python code, no markdown, no comments.\n5. If the query asks for a plot, just return a string saying \x27Plotting not supported yet\x27.\n"

-- code.replace("```python", "").replace("```", "").strip()
def sanitizeCode (code : String) : String :=
  pyStripS ((code.replace "\x60\x60\x60python" "").replace "\x60\x60\x60" "")

def noResultMsg : String :=
  "Code executed successfully but \x60result\x60 variable was None."

/-- `pandas_fn(query)`: generate pandas code via the LLM, sanitize it,
execute it, and turn every outcome — including an exception — into a text
result.  `pyExec` models Python exec over the preloaded dataframe scope. -/
def pandas_fn (llm : String → String → String) (pyExec : String → ExecOutcome)
    (schema_str fname query : String) : String :=
  match pyExec (sanitizeCode
      (pyStripS (llm (pandasPrompt schema_str fname query) codingSystemPrompt))) with
  | ExecOutcome.ok result captured =>
    match result with
    | some r => r
    | none => if pyStripS captured ≠ "" then pyStripS captured else noResultMsg
  | ExecOutcome.err _ tb => "Error executing pandas code:\n" ++ tb

-- ── Semantic tool router (src/agent_worker.py, select_tools) ────────

/-- One persisted entry of the "tool-descriptions" routing collection. -/
structure CatalogEntry where
  id : String
  description : String
  tool_type : String
  document_name : String
deriving Repr, DecidableEq

-- The ChromaDB $in metadata filter: an entry passes iff its document_name
-- is in the allowed list; no filter passes everything.
def matchesFilter (f : Option (List String)) (e : CatalogEntry) : Bool :=
  match f with
  | none => true
  | some ds => ds.contains e.document_name

/-- The filter actually passed to the store: Python's
`where_filter if where_filter else None` with
`if allowed_docs: where_filter = ...` means both None and the empty list
leave the search unfiltered. -/
def activeFilter (allowed_docs : Option (List String)) : Option (List String) :=
  match allowed_docs with
  | none => none
  | some ds => if ds.isEmpty then none else some ds

/-- `select_tools(query, top_k, allowed_docs)`: embed the query, run the
similarity query against the routing collection (modelled by `chromaQuery`,
which takes the query, the active metadata filter and n_results and returns
the ranked ids), then map ids back to live tools, silently skipping unknown
ids.  The code passes top_k through unclamped (`k = top_k`) and relies on
the store to return at most what exists. -/
def select_tools (tools : List Tool)
    (chromaQuery : String → Option (List String) → Nat → List String)
    (query : String) (top_k : Nat) (allowed_docs : Option (List String)) : List Tool :=
  let where_filter := activeFilter allowed_docs
  let k := top_k
  let ids := chromaQuery query where_filter k
  ids.filterMap (fun n => toolMapGet tools n)

-- ── Action parsing (src/agent_runner.py, _parse_action) ─────────────

-- A parsed JSON object, modelled as string-valued fields (the loop only
-- reads the "action", "tool", "answer" and "reasoning" fields as strings).
abbrev PyDict := List (String × String)

/-- A value json.loads can return: a JSON object (Python dict), JSON null
(Python None — which `run` then treats exactly like a parse failure, since
it tests `action is None`), or any other JSON value — bool, number, string
or array — carried here by its textual representation.  On such a non-dict,
non-None value, `action.get(...)` in run raises AttributeError. -/
inductive PyJson where
  | obj (d : PyDict)
  | null
  | other (v : String)
deriving Repr, DecidableEq

/-- The exception `AgentRunner.run` can raise and propagate to its caller:
`action.get("action")` on a successfully parsed non-dict, non-None JSON
value ("'<type>' object has no attribute 'get'"); the payload holds the
offending value's textual representation. -/
inductive PyError where
  | attributeError (value : String)
deriving Repr, DecidableEq

def dictGet (d : PyDict) (k : String) : Option String :=
  (d.find? (fun p => p.1 == k)).map (fun p => p.2)

/-- `_parse_action(raw)`: strip, try a full json.loads (modelled by the
`jl` parameter, none meaning JSONDecodeError); on failure scan for the
first brace and the last closing brace and try the substring; otherwise
Python None.  The successfully parsed value is returned unchanged, whether
or not it is a dict — the `dict | None` annotation in the source is not
enforced at runtime. -/
def _parse_action (jl : String → Option PyJson) (raw : String) : Option PyJson :=
  let raw := pyStripS raw
  match jl raw with
  | some d => some d
  | none =>
    let cs := raw.toList
    match cs.findIdx? (· == '\x7b'), pyRfind cs '\x7d' with
    | some s, some e =>
      if s < e + 1 then jl (String.mk ((cs.drop s).take (e + 1 - s))) else none
    | _, _ => none

-- ── Reasoning loop (src/agent_runner.py, AgentRunner.run) ───────────

def agentSystemPrompt (tool_list context : String) : String :=
  "You are an intelligent research agent. You answer questions by selecting and using the available tools. You MUST respond with valid JSON only — no markdown, no extra text.\n\nAVAILABLE TOOLS:\n" ++ tool_list ++ "\n\nCONTEXT GATHERED SO FAR:\n" ++ context ++ "\n\nRULES:\n1. If you need more information, call a tool by responding with:\n   \x7b\"action\": \"tool_call\", \"tool\": \"<tool_name>\", \"reasoning\": \"<why you chose this tool>\"\x7d\n\n2. If you have enough information to answer the user\x27s question, respond with:\n   \x7b\"action\": \"final_answer\", \"answer\": \"<your comprehensive answer>\", \"reasoning\": \"<how you derived the answer>\"\x7d\n\n3. Choose the most relevant tool. Use vector tools for specific facts and summary tools for overviews.\n4. Do NOT call a tool you have already called in a previous step.\n5. Your answer should be thorough and directly address the question."

def resultLabel (tool_name tool_type document_name result : String) : String :=
  "[Result from " ++ tool_name ++ " (" ++ tool_type ++ " on \x27" ++ document_name ++ "\x27)]:\n" ++ result

def defaultSystemPrompt : String := "You are a helpful assistant."

def synthesisPrompt (query context_str : String) : String :=
  "Based on the following retrieved information, provide a comprehensive answer to the question.\n\nQUESTION: " ++ query ++ "\n\nRETRIEVED INFORMATION:\n" ++ context_str ++ "\n\nANSWER:"

/-- `_synthesize_final(query, context_parts)`: one LLM call over the
accumulated context, with the default system prompt and no tool access. -/
def _synthesize_final (llm : String → String → String) (query : String)
    (context_parts : List String) : String :=
  let context_str := if context_parts.isEmpty then "(no context)" else joinSep "\n\n" context_parts
  llm (synthesisPrompt query context_str) defaultSystemPrompt

/-- The observable record of one run of AgentRunner.run: `outcome` is the
function's result — the returned answer string, or the AttributeError the
run raises and propagates when a decision response parses as a non-dict,
non-None JSON value; `called` and `context` record the tool invocations and
collected outputs made up to completion or crash, `decisions` the number of
decision LLM calls, and `synth` whether the fallback synthesis LLM call was
made. -/
structure RunResult where
  outcome : Except PyError String
  called : List String
  context : List String
  decisions : Nat
  synth : Bool
deriving DecidableEq

/-- The `for step in range(1, MAX_REASONING_STEPS + 1)` loop of
AgentRunner.run, with `stepsLeft` counting the remaining iterations; the
base case is the fallback synthesis after step exhaustion.  A parse result
of Python None (parse failure, or JSON null) returns the raw response as
the answer; any other non-dict parse result crashes at `action.get`. -/
def runLoop (llm : String → String → String) (jl : String → Option PyJson)
    (query : String) (selected : List Tool) :
    Nat → List String → List String → RunResult
  | 0, called, context =>
    { outcome := Except.ok (_synthesize_final llm query context), called := called
      context := context, decisions := 0, synth := true }
  | Nat.succ left, called, context =>
    let tool_list_str :=
      joinSep "\n"
        ((selected.filter (fun t => decide (t.name ∉ called))).map
          (fun t => "  - " ++ t.name ++ ": " ++ t.description))
    let tool_list_str :=
      if tool_list_str = "" then "(All available tools have been called)" else tool_list_str
    let context_str := if context.isEmpty then "(none yet)" else joinSep "\n\n" context
    let system := agentSystemPrompt tool_list_str context_str
    let user_prompt := "USER QUESTION: " ++ query
    let raw := llm user_prompt system
    match _parse_action jl raw with
    | none =>
      { outcome := Except.ok raw, called := called, context := context
        decisions := 1, synth := false }
    | some PyJson.null =>
      { outcome := Except.ok raw, called := called, context := context
        decisions := 1, synth := false }
    | some (PyJson.other v) =>
      { outcome := Except.error (PyError.attributeError v), called := called
        context := context, decisions := 1, synth := false }
    | some (PyJson.obj action) =>
      if dictGet action "action" = some "final_answer" then
        { outcome := Except.ok ((dictGet action "answer").getD raw), called := called
          context := context, decisions := 1, synth := false }
      else if dictGet action "action" = some "tool_call" then
        let tool_name := (dictGet action "tool").getD ""
        match toolMapGet selected tool_name with
        | some t =>
          if tool_name ∈ called then
            let r := runLoop llm jl query selected left called context
            { r with decisions := r.decisions + 1 }
          else
            let result := t.func query
            let r := runLoop llm jl query selected left (called ++ [tool_name])
              (context ++ [resultLabel tool_name t.tool_type t.document_name result])
            { r with decisions := r.decisions + 1 }
        | none =>
          let r := runLoop llm jl query selected left called context
          { r with decisions := r.decisions + 1 }
      else
        let r := runLoop llm jl query selected left called context
        { r with decisions := r.decisions + 1 }

/-- `AgentRunner.run(query)` with the step bound as a parameter: select
tools for the raw query, short-circuit when none are found, else run the
reasoning loop. -/
def AgentRunner_runWith (maxSteps : Nat) (select : String → List Tool)
    (llm : String → String → String) (jl : String → Option PyJson)
    (query : String) : RunResult :=
  if (select query).isEmpty then
    { outcome := Except.ok "I couldn\x27t find any relevant knowledge sources for your query."
      called := [], context := [], decisions := 0, synth := false }
  else
    runLoop llm jl query (select query) maxSteps [] []

/-- `AgentRunner.run(query)` at the configured MAX_REASONING_STEPS. -/
def AgentRunner_run (select : String → List Tool) (llm : String → String → String)
    (jl : String → Option PyJson) (query : String) : RunResult :=
  AgentRunner_runWith MAX_REASONING_STEPS select llm jl query

-- ── Call-signature model for claim C3 ───────────────────────────────

-- The parameter names of AgentRunner.run as defined in the source:
-- `def run(self, query: str) -> str`.
def agentRunnerRunParams : List String := ["self", "query"]

-- The keyword arguments server.py passes in get_bot_reply:
-- `runner.run(query, allowed_docs=docs)`.
def serverChatRunKwargs : List String := ["allowed_docs"]

-- A Python call with keyword arguments succeeds only if every keyword
-- names a parameter; otherwise it raises TypeError.
def acceptsKwargs (params kwargs : List String) : Bool :=
  kwargs.all (fun k => params.contains k)

-- ── Concrete injective hash for the C5 witness ──────────────────────

-- An injective encoding of byte lists into strings (unary blocks of x
-- terminated by y), standing in for the collision-free idealisation of
-- MD5 that the spec's change-detection claim assumes.
def unaryChars : List Nat → List Char
  | [] => []
  | n :: rest => List.replicate n 'x' ++ 'y' :: unaryChars rest

-- ── Concrete instances used by witnesses and counterexamples ────────

-- A collaborator environment with trivial readers (for C4).
def envX : Env :=
  { hash := fun _ => "", llm := fun _ => "", readPdf := fun _ => "",
    readText := fun _ => "", analyzeTabular := fun _ => "" }

-- A collaborator environment with an injective hash (for C5): reading the
-- one-byte text file "a.txt" yields "a"; every LLM summary is "S".
def envW : Env :=
  { hash := fun b => String.mk (unaryChars b), llm := fun _ => "S",
    readPdf := fun _ => "", readText := fun _ => "a", analyzeTabular := fun _ => "T" }

def fileW : FileModel := { name := "a.txt", bytes := [97] }

def fileW2 : FileModel := { name := "a.txt", bytes := [98] }

def infoW : DocumentInfo :=
  { name := "a.txt", slug := "a_doc", summary := "S", chunk_count := 1
    collection_name := "doc_a_doc", is_tabular := false, file_path := some "a.txt" }

def entryW : MetaEntry :=
  { summary := "S", file_name := "a.txt", file_hash := String.mk (unaryChars [97])
    chunk_count := 1, collection_name := "doc_a_doc", is_tabular := false }

def storeW : MetaStore := [("a_doc", entryW)]

def trW : List Effect :=
  [Effect.embed ["a"], Effect.deleteCollection "doc_a_doc",
   Effect.createCollection "doc_a_doc", Effect.addChunks "doc_a_doc" ["a_doc_chunk_0"],
   Effect.llm (narrativeSummaryPrompt "a"), Effect.upsertMeta "a_doc"]

def toolA : Tool :=
  { name := "t1", description := "d", tool_type := "vector"
    document_name := "doc.txt", func := fun _ => "out" }

def selectA : String → List Tool := fun _ => [toolA]

-- A decision oracle that always issues the same tool_call (for C6/C7
-- witnesses: the tool is invoked once, then skipped, then the step bound
-- forces the fallback synthesis).
def rawToolCall : String := "\x7b\"action\": \"tool_call\", \"tool\": \"t1\"\x7d"

def jlToolCall : String → Option PyJson :=
  fun s => if s = rawToolCall
           then some (PyJson.obj [("action", "tool_call"), ("tool", "t1")]) else none

def llmToolCall : String → String → String := fun _ _ => rawToolCall

-- A catalog and a store query honouring the vector-store contract (for C2).
def catalogW : List CatalogEntry :=
  [{ id := "t1", description := "d1", tool_type := "vector", document_name := "a.txt" },
   { id := "t2", description := "d2", tool_type := "summary", document_name := "a.txt" }]

def chromaQueryW : String → Option (List String) → Nat → List String :=
  fun _ f n => ((catalogW.filter (matchesFilter f)).map CatalogEntry.id).take n

-- A code generator and a failing executor (for C8).
def llmP : String → String → String := fun _ _ => "result = df.mean()"

def pyExecErr : String → ExecOutcome :=
  fun _ => ExecOutcome.err "" "ZeroDivisionError: division by zero"

-- ════════════════════════ Helper lemmas ════════════════════════════

theorem dropWhile_eq_self_of_all {p : Char → Bool} :
    ∀ {l : List Char}, (∀ c ∈ l, p c = false) → l.dropWhile p = l
  | [], _ => rfl
  | c :: rest, h => by
    have hc : p c = false := h c (List.mem_cons_self c rest)
    simp [List.dropWhile_cons, hc]

theorem pyStrip_eq_self {l : List Char} (h : ∀ c ∈ l, isSpaceC c = false) :
    pyStrip l = l := by
  unfold pyStrip
  rw [dropWhile_eq_self_of_all h, dropWhile_eq_self_of_all, List.reverse_reverse]
  intro c hc
  exact h c (List.mem_reverse.mp hc)

theorem ceil_step (s d : Nat) (hs : 0 < s) (hd : 1 ≤ d) :
    (d - s + s - 1) / s + 1 = (d + s - 1) / s := by
  rcases le_or_lt d s with h | h
  · have h2 : d - s + s - 1 = s - 1 := by omega
    have h3 : d + s - 1 = (d - 1) + s := by omega
    rw [h2, h3, Nat.div_eq_of_lt (by omega), Nat.add_div_right _ hs,
        Nat.div_eq_of_lt (by omega)]
  · have h2 : d - s + s - 1 = (d - s - 1) + s := by omega
    have h3 : d + s - 1 = (d - 1) + s := by omega
    have h4 : d - 1 = (d - s - 1) + s := by omega
    rw [h2, h3, Nat.add_div_right _ hs, h4, Nat.add_div_right _ hs,
        Nat.add_div_right _ hs]

theorem chunkLoop_length (text : List Char) (C O : Nat) (hO : O < C)
    (hw : ∀ c ∈ text, isSpaceC c = false) :
    ∀ fuel start, text.length - start ≤ (C - O) * fuel →
      (chunkLoop text C O start fuel).length
        = (text.length - start + (C - O) - 1) / (C - O) := by
  intro fuel
  induction fuel with
  | zero =>
    intro start h
    have h0 : text.length - start = 0 := by omega
    simp only [chunkLoop, List.length_nil, h0]
    exact (Nat.div_eq_of_lt (by omega)).symm
  | succ fuel ih =>
    intro start h
    by_cases hlt : start < text.length
    · have hsub : ∀ c ∈ (text.drop start).take C, isSpaceC c = false :=
        fun c hc => hw c (List.drop_subset _ _ (List.take_subset _ _ hc))
      have hchunk : pyStrip ((text.drop start).take C) = (text.drop start).take C :=
        pyStrip_eq_self hsub
      have hne : ((text.drop start).take C).length ≠ 0 := by
        rw [List.length_take, List.length_drop]
        omega
      have hemp : (pyStrip ((text.drop start).take C)).isEmpty = false := by
        rw [hchunk]
        cases hcase : (text.drop start).take C with
        | nil => rw [hcase] at hne; simp at hne
        | cons a t => rfl
      have hstep : text.length - (start + (C - O)) ≤ (C - O) * fuel := by
        have hm : (C - O) * (fuel + 1) = (C - O) * fuel + (C - O) := Nat.mul_succ _ _
        omega
      have hrec := ih (start + (C - O)) hstep
      simp only [chunkLoop, if_pos hlt, hemp, Bool.false_eq_true, if_false,
        List.length_cons, hrec]
      have hd : 1 ≤ text.length - start := by omega
      have hrw : text.length - (start + (C - O)) = text.length - start - (C - O) := by
        omega
      rw [hrw]
      exact ceil_step (C - O) (text.length - start) (by omega) hd
    · have h0 : text.length - start = 0 := by omega
      simp only [chunkLoop, if_neg hlt, List.length_nil, h0]
      exact (Nat.div_eq_of_lt (by omega)).symm

theorem toolMapGet_mem {ts : List Tool} {n : String} {t : Tool}
    (h : toolMapGet ts n = some t) : t ∈ ts ∧ t.name = n := by
  unfold toolMapGet at h
  have h1 := List.mem_of_find?_eq_some h
  have h2 := List.find?_some h
  exact ⟨List.mem_reverse.mp h1, by simpa using h2⟩

theorem runLoop_called (llm : String → String → String) (jl : String → Option PyJson)
    (query : String) (selected : List Tool) :
    ∀ steps called context, called.Nodup →
      (∀ n ∈ called, ∃ t, t ∈ selected ∧ t.name = n) →
      ((runLoop llm jl query selected steps called context).called.Nodup ∧
       ∀ n ∈ (runLoop llm jl query selected steps called context).called,
         ∃ t, t ∈ selected ∧ t.name = n) := by
  intro steps
  induction steps with
  | zero => intro called context hnd hsub; exact ⟨hnd, hsub⟩
  | succ m ih =>
    intro called context hnd hsub
    simp only [runLoop]
    split
    · exact ⟨hnd, hsub⟩
    · exact ⟨hnd, hsub⟩
    · exact ⟨hnd, hsub⟩
    · split
      · exact ⟨hnd, hsub⟩
      · split
        · split
          next t heq =>
            split
            next hin => exact ih _ _ hnd hsub
            next hnin =>
              have hmm := toolMapGet_mem heq
              refine ih _ _ ?_ ?_
              · refine List.Nodup.append hnd (List.nodup_singleton _) ?_
                intro a ha hb
                simp only [List.mem_singleton] at hb
                subst hb
                exact hnin ha
              · intro n hn
                rcases List.mem_append.mp hn with h | h
                · exact hsub n h
                · simp only [List.mem_singleton] at h
                  subst h
                  exact ⟨t, hmm.1, hmm.2⟩
          next heq => exact ih _ _ hnd hsub
        · exact ih _ _ hnd hsub

theorem metaGet_metaUpsert (store : MetaStore) (slug : String) (e : MetaEntry) :
    metaGet (metaUpsert store slug e) slug = some e := by
  simp [metaUpsert, metaGet]

theorem extract_text_ok (env : Env) (f : FileModel) :
    ∃ s, _extract_text env f = Except.ok s := by
  unfold _extract_text
  split
  · exact ⟨_, rfl⟩
  · split
    · exact ⟨_, rfl⟩
    · exact ⟨_, rfl⟩

theorem fullProcess_ok (env : Env) (store : MetaStore) (f : FileModel) (tab : Bool)
    (slug coll hsh : String) (info1 : DocumentInfo) (store1 : MetaStore) (tr1 : List Effect)
    (h : fullProcess env store f tab slug coll hsh = Except.ok (info1, store1, tr1)) :
    ∃ e : MetaEntry, store1 = metaUpsert store slug e ∧ e.file_hash = hsh ∧
      e.is_tabular = tab ∧ info1 = cachedInfo f slug coll e ∧
      Effect.upsertMeta slug ∈ tr1 ∧ (∃ p, Effect.llm p ∈ tr1) ∧
      (∀ eff ∈ tr1, effectTouchesOnly slug coll eff) := by
  unfold fullProcess at h
  split at h
  next htab =>
    simp only [Except.ok.injEq, Prod.mk.injEq] at h
    obtain ⟨hinfo, hstore, htr⟩ := h
    subst htab
    refine ⟨_, hstore.symm, rfl, rfl, ?_, ?_, ?_, ?_⟩
    · rw [← hinfo]; rfl
    · rw [← htr]; simp
    · refine ⟨tabularSummaryPrompt (env.analyzeTabular f), ?_⟩
      rw [← htr]; simp
    · intro eff heff
      rw [← htr] at heff
      simp only [List.mem_cons, List.not_mem_nil, or_false] at heff
      rcases heff with rfl | rfl <;> simp [effectTouchesOnly]
  next htab =>
    have htab' : tab = false := by
      cases tab
      · rfl
      · exact absurd rfl htab
    subst htab'
    obtain ⟨s, hs⟩ := extract_text_ok env f
    rw [hs] at h
    simp only [Except.ok.injEq, Prod.mk.injEq] at h
    obtain ⟨hinfo, hstore, htr⟩ := h
    refine ⟨_, hstore.symm, rfl, rfl, ?_, ?_, ?_, ?_⟩
    · rw [← hinfo]; rfl
    · rw [← htr]; simp
    · refine ⟨narrativeSummaryPrompt (strTake s 6000), ?_⟩
      rw [← htr]; simp
    · intro eff heff
      rw [← htr] at heff
      simp only [List.mem_cons, List.not_mem_nil, or_false] at heff
      rcases heff with rfl | rfl | rfl | rfl | rfl | rfl <;> simp [effectTouchesOnly]

theorem fullProcess_exists (env : Env) (store : MetaStore) (f : FileModel) (tab : Bool)
    (slug coll hsh : String) :
    ∃ r, fullProcess env store f tab slug coll hsh = Except.ok r := by
  unfold fullProcess
  split
  · exact ⟨_, rfl⟩
  · obtain ⟨s, hs⟩ := extract_text_ok env f
    rw [hs]
    exact ⟨_, rfl⟩

theorem process_one_meta (env : Env) (store0 : MetaStore) (f : FileModel) (tab : Bool)
    (info1 : DocumentInfo) (store1 : MetaStore) (tr1 : List Effect)
    (h1 : _process_one env store0 f tab = Except.ok (info1, store1, tr1)) :
    ∃ e : MetaEntry,
      metaGet store1 (_slugify f.name) = some e ∧
      e.file_hash = env.hash f.bytes ∧
      info1 = cachedInfo f (_slugify f.name)
        (if tab then "tabular_data" else "doc_" ++ _slugify f.name) e := by
  unfold _process_one at h1
  split at h1
  next entry hm =>
    split at h1
    next hh =>
      simp only [Except.ok.injEq, Prod.mk.injEq] at h1
      obtain ⟨hinfo, hstore, htr⟩ := h1
      exact ⟨entry, by rw [← hstore]; exact hm, hh, hinfo.symm⟩
    next hh =>
      obtain ⟨e, hst, hfh, htab, hinfo, _, _, _⟩ :=
        fullProcess_ok env store0 f tab _ _ _ info1 store1 tr1 h1
      refine ⟨e, ?_, hfh, hinfo⟩
      rw [hst]
      exact metaGet_metaUpsert _ _ _
  next hm =>
    obtain ⟨e, hst, hfh, htab, hinfo, _, _, _⟩ :=
      fullProcess_ok env store0 f tab _ _ _ info1 store1 tr1 h1
    refine ⟨e, ?_, hfh, hinfo⟩
    rw [hst]
    exact metaGet_metaUpsert _ _ _

theorem unary_block_eq {n m : Nat} {u v : List Char}
    (h : List.replicate n 'x' ++ 'y' :: u = List.replicate m 'x' ++ 'y' :: v) :
    n = m ∧ u = v := by
  induction n generalizing m with
  | zero =>
    cases m with
    | zero =>
      simp only [List.replicate_zero, List.nil_append, List.cons.injEq] at h
      exact ⟨rfl, h.2⟩
    | succ m =>
      simp only [List.replicate_zero, List.replicate_succ, List.nil_append,
        List.cons_append, List.cons.injEq] at h
      exact absurd h.1 (by decide)
  | succ n ih =>
    cases m with
    | zero =>
      simp only [List.replicate_zero, List.replicate_succ, List.nil_append,
        List.cons_append, List.cons.injEq] at h
      exact absurd h.1 (by decide)
    | succ m =>
      simp only [List.replicate_succ, List.cons_append, List.cons.injEq] at h
      obtain ⟨h3, h4⟩ := ih h.2
      exact ⟨by rw [h3], h4⟩

theorem unaryChars_inj : ∀ a b : List Nat, unaryChars a = unaryChars b → a = b
  | [], [], _ => rfl
  | [], m :: bs, h => by
    simp only [unaryChars] at h
    have hlen := congrArg List.length h
    simp only [List.length_nil, List.length_append, List.length_replicate,
      List.length_cons] at hlen
    omega
  | n :: as, [], h => by
    simp only [unaryChars] at h
    have hlen := congrArg List.length h
    simp only [List.length_nil, List.length_append, List.length_replicate,
      List.length_cons] at hlen
    omega
  | n :: as, m :: bs, h => by
    simp only [unaryChars] at h
    obtain ⟨h1, h2⟩ := unary_block_eq h
    rw [h1, unaryChars_inj as bs h2]

theorem envW_hash_inj : Function.Injective envW.hash := by
  intro a b h
  exact unaryChars_inj a b (congrArg String.data h)

-- ════════════════════════ Claim theorems ═══════════════════════════

/-- C1 counterexample: the spec's chunk-count formula ceil((L-O)/(C-O)) is
wrong for the code.  For the 7-character whitespace-free text "aaaaaaa" with
chunk size 5 and overlap 2 the loop runs at starts 0, 3 and 6 and produces 3
chunks, while the formula gives ceil(5/3) = 2: the Python loop keeps
starting new chunks while start < L, not while start + O < L. -/
theorem chunk_count_spec_formula_false :
    ((_chunk_text (String.mk (List.replicate 7 'a')) 5 2).length : Int)
      ≠ specChunkCountFormula 7 5 2 := by decide

/-- C1 (amended): for overlap O < chunk size C and a text with no whitespace
characters, `_chunk_text` produces exactly ceil(L / (C - O)) chunks when
L > 0 (one chunk per loop start below L), and exactly one placeholder chunk
"(empty document)" when L = 0. -/
theorem chunk_count_amended (text : String) (C O : Nat) (hO : O < C)
    (hw : ∀ c ∈ text.toList, isSpaceC c = false) :
    (0 < text.toList.length →
      (_chunk_text text C O).length
        = (text.toList.length + (C - O) - 1) / (C - O)) ∧
    (text.toList.length = 0 → _chunk_text text C O = ["(empty document)"]) := by
  constructor
  · intro hL
    have hfuel : text.toList.length - 0 ≤ (C - O) * text.toList.length := by
      have := Nat.le_mul_of_pos_left text.toList.length (show 0 < C - O by omega)
      omega
    have hlen := chunkLoop_length text.toList C O hO hw text.toList.length 0 hfuel
    have hpos : 0 < (chunkLoop text.toList C O 0 text.toList.length).length := by
      rw [hlen]
      exact Nat.div_pos (by omega) (by omega)
    have hne : (chunkLoop text.toList C O 0 text.toList.length).isEmpty = false := by
      cases hc : chunkLoop text.toList C O 0 text.toList.length with
      | nil => rw [hc] at hpos; simp at hpos
      | cons a t => rfl
    unfold _chunk_text
    rw [hne]
    simp only [Bool.false_eq_true, if_false, List.length_map, hlen, Nat.sub_zero]
  · intro hL0
    have h0 : text.toList = [] := List.length_eq_zero.mp hL0
    unfold _chunk_text
    rw [h0]
    rfl

/-- C1 witness: the amended count at the concrete whitespace-free text
"aaaaaaa" with C = 5, O = 2: hypotheses hold and the code produces
(7 + 3 - 1) / 3 = 3 chunks. -/
theorem chunk_count_amended_witness :
    (2 : Nat) < 5 ∧ 0 < "aaaaaaa".toList.length ∧
    (_chunk_text "aaaaaaa" 5 2).length = (7 + (5 - 2) - 1) / (5 - 2) :=
  ⟨by decide, by decide,
   (chunk_count_amended "aaaaaaa" 5 2 (by decide) (by decide)).1 (by decide)⟩

/-- C3: server.py invokes the caller-facing query operation as
`runner.run(query, allowed_docs=docs)`, but AgentRunner.run is defined as
`run(self, query)` — the keyword is not accepted, so the call raises
TypeError and no document filter is ever threaded into tool selection.  The
spec (and select_tools, which does accept allowed_docs) shows the threading
was intended. -/
theorem run_rejects_allowed_docs_kwarg :
    acceptsKwargs agentRunnerRunParams serverChatRunKwargs = false := by decide

/-- C4 counterexample: for a file with the unsupported extension ".xyz",
`_extract_text` does not fail with an UnsupportedFormat error — it returns
the placeholder string "[Binary file: data.xyz]". -/
theorem extract_text_unknown_suffix_ok :
    _extract_text envX { name := "data.xyz", bytes := [] }
      = Except.ok "[Binary file: data.xyz]" ∧
    ∀ e : ExtractError,
      _extract_text envX { name := "data.xyz", bytes := [] } ≠ Except.error e := by
  refine ⟨by decide, ?_⟩
  intro e h
  rw [show _extract_text envX { name := "data.xyz", bytes := [] }
        = Except.ok "[Binary file: data.xyz]" by decide] at h
  exact Except.noConfusion h

/-- C4 (amended): for every file whose lowercased extension is none of
.pdf/.txt/.md/.csv, `_extract_text` succeeds with the placeholder string
"[Binary file: <name>]" instead of raising; in the pipeline such files are
excluded by process_all before extraction is ever reached.  (Note .csv is
read as plain text here, not rejected.) -/
theorem extract_text_placeholder (env : Env) (f : FileModel)
    (h : strToLower (pathSuffix f.name) ∉ ([".pdf", ".txt", ".md", ".csv"] : List String)) :
    _extract_text env f = Except.ok ("[Binary file: " ++ f.name ++ "]") := by
  have h1 : ¬ strToLower (pathSuffix f.name) = ".pdf" := fun hc => h (by rw [hc]; simp)
  have h2 : ¬ ([".txt", ".md", ".csv"].contains (strToLower (pathSuffix f.name)) = true) := by
    intro hc
    exact h (List.mem_cons_of_mem _ (List.mem_of_elem_eq_true hc))
  unfold _extract_text
  rw [if_neg h1, if_neg h2]

/-- C4 witness: the amended statement at the concrete file "data.xyz". -/
theorem extract_text_placeholder_witness :
    strToLower (pathSuffix "data.xyz") ∉ ([".pdf", ".txt", ".md", ".csv"] : List String) ∧
    _extract_text envX { name := "data.xyz", bytes := [] }
      = Except.ok ("[Binary file: " ++ "data.xyz" ++ "]") :=
  ⟨by decide, extract_text_placeholder envX { name := "data.xyz", bytes := [] } (by decide)⟩

/-- C9: the summary tool's invoke is independent of its query argument and
returns the document's precomputed summary verbatim. -/
theorem summary_tool_ignores_query (info : DocumentInfo) (q1 q2 : String) :
    (_make_summary_tool info).func q1 = (_make_summary_tool info).func q2 ∧
    (_make_summary_tool info).func q1 = info.summary := ⟨rfl, rfl⟩

/-- C10: calling select_tools with an empty allowed-documents list behaves
identically to calling it with no list at all — Python's `if allowed_docs:`
treats the empty list as falsy, so no metadata filter is applied and the
full catalog is searched. -/
theorem select_tools_empty_filter (tools : List Tool)
    (chromaQuery : String → Option (List String) → Nat → List String)
    (q : String) (top_k : Nat) :
    select_tools tools chromaQuery q top_k (some []) =
      select_tools tools chromaQuery q top_k none ∧
    activeFilter (some []) = none := ⟨rfl, rfl⟩

/-- C2: select_tools does not error when top_k exceeds the number of catalog
entries visible under the active filter.  Under the vector store's contract
(the similarity query returns at most min(n_results, matching entries) ids —
the clamping the code comment delegates to Chroma), the selection holds at
most min(top_k, available-under-filter) tools; the embedding is a total
function, so no error path exists. -/
theorem select_tools_clamped (tools : List Tool) (catalog : List CatalogEntry)
    (chromaQuery : String → Option (List String) → Nat → List String)
    (q : String) (top_k : Nat) (allowed : Option (List String))
    (hcq : ∀ f n, (chromaQuery q f n).length
             ≤ min n ((catalog.filter (matchesFilter f)).length)) :
    (select_tools tools chromaQuery q top_k allowed).length ≤ top_k ∧
    (select_tools tools chromaQuery q top_k allowed).length
      ≤ (catalog.filter (matchesFilter (activeFilter allowed))).length := by
  have h1 : (select_tools tools chromaQuery q top_k allowed).length
      ≤ (chromaQuery q (activeFilter allowed) top_k).length := by
    unfold select_tools
    exact List.length_filterMap_le _ _
  have h2 := hcq (activeFilter allowed) top_k
  exact ⟨(h1.trans h2).trans (Nat.min_le_left _ _),
         (h1.trans h2).trans (Nat.min_le_right _ _)⟩

/-- C2 witness: at a concrete two-entry catalog, requesting top_k = 5 under
the filter \x7b"a.txt"\x7d returns at most min(5, 2) tools. -/
theorem select_tools_clamped_witness :
    (∀ f n, (chromaQueryW "avg" f n).length
       ≤ min n ((catalogW.filter (matchesFilter f)).length)) ∧
    (select_tools [] chromaQueryW "avg" 5 (some ["a.txt"])).length ≤ 5 ∧
    (select_tools [] chromaQueryW "avg" 5 (some ["a.txt"])).length
      ≤ (catalogW.filter (matchesFilter (activeFilter (some ["a.txt"])))).length := by
  have hcq : ∀ f n, (chromaQueryW "avg" f n).length
      ≤ min n ((catalogW.filter (matchesFilter f)).length) := by
    intro f n
    unfold chromaQueryW
    rw [List.length_take, List.length_map]
  exact ⟨hcq,
    (select_tools_clamped [] catalogW chromaQueryW "avg" 5 (some ["a.txt"]) hcq).1,
    (select_tools_clamped [] catalogW chromaQueryW "avg" 5 (some ["a.txt"]) hcq).2⟩

/-- C5: with the content hash idealised as collision-free (injective, the
property the spec assumes of MD5): (1) reprocessing an unchanged file
returns the identical DocumentInfo with the identical store and an empty
effect trace — in particular no embedding and no LLM call; (2) a byte
change changes the hash; (3) it forces full reprocessing of that document:
the metadata is re-upserted under the new hash, an LLM summarization call
happens, and every touched collection or metadata id belongs to this
document alone. -/
theorem process_one_idempotent_and_change
    (env : Env) (store0 : MetaStore) (f f2 : FileModel) (tab : Bool)
    (info1 : DocumentInfo) (store1 : MetaStore) (tr1 : List Effect)
    (h1 : _process_one env store0 f tab = Except.ok (info1, store1, tr1))
    (hname : f2.name = f.name) (hbytes : f2.bytes ≠ f.bytes)
    (hinj : Function.Injective env.hash) :
    _process_one env store1 f tab = Except.ok (info1, store1, []) ∧
    env.hash f2.bytes ≠ env.hash f.bytes ∧
    (∃ info2 store2 tr2,
      _process_one env store1 f2 tab = Except.ok (info2, store2, tr2) ∧
      Effect.upsertMeta (_slugify f.name) ∈ tr2 ∧
      (∃ p, Effect.llm p ∈ tr2) ∧
      (metaGet store2 (_slugify f.name)).map MetaEntry.file_hash
        = some (env.hash f2.bytes) ∧
      (∀ eff ∈ tr2, effectTouchesOnly (_slugify f.name)
        (if tab then "tabular_data" else "doc_" ++ _slugify f.name) eff)) := by
  obtain ⟨e, hm, hh, hinfo⟩ := process_one_meta env store0 f tab info1 store1 tr1 h1
  have hne2 : env.hash f2.bytes ≠ env.hash f.bytes := fun hc => hbytes (hinj hc)
  refine ⟨?_, hne2, ?_⟩
  · simp only [_process_one, hm]
    rw [if_pos hh, ← hinfo]
  · have hslug : _slugify f2.name = _slugify f.name := by rw [hname]
    obtain ⟨⟨info2, store2, tr2⟩, hfull⟩ :=
      fullProcess_exists env store1 f2 tab (_slugify f.name)
        (if tab then "tabular_data" else "doc_" ++ _slugify f.name) (env.hash f2.bytes)
    obtain ⟨e2, hst2, hfh2, _, _, hup, hllm, htouch⟩ :=
      fullProcess_ok env store1 f2 tab _ _ _ info2 store2 tr2 hfull
    refine ⟨info2, store2, tr2, ?_, hup, hllm, ?_, htouch⟩
    · simp only [_process_one, hslug, hm]
      rw [if_neg (fun hc => hne2 (hc.symm.trans hh))]
      exact hfull
    · rw [hst2, metaGet_metaUpsert]
      simp [hfh2]

/-- C5 witness: the one-byte text file "a.txt" is processed once from an
empty store; the second run on unchanged bytes returns the identical record
with no effects, and the byte change 97 to 98 changes the (injective) hash
and forces full reprocessing. -/
theorem process_one_idempotent_and_change_witness :
    _process_one envW storeW fileW false = Except.ok (infoW, storeW, []) ∧
    envW.hash fileW2.bytes ≠ envW.hash fileW.bytes ∧
    (∃ info2 store2 tr2,
      _process_one envW storeW fileW2 false = Except.ok (info2, store2, tr2) ∧
      Effect.upsertMeta (_slugify fileW.name) ∈ tr2 ∧
      (∃ p, Effect.llm p ∈ tr2) ∧
      (metaGet store2 (_slugify fileW.name)).map MetaEntry.file_hash
        = some (envW.hash fileW2.bytes) ∧
      (∀ eff ∈ tr2, effectTouchesOnly (_slugify fileW.name)
        (if false then "tabular_data" else "doc_" ++ _slugify fileW.name) eff)) :=
  process_one_idempotent_and_change envW [] fileW fileW2 false infoW storeW trW
    (by decide) rfl (by decide) envW_hash_inj

/-- C7: over a whole run, the invoked tool names are pairwise distinct and
each belongs to the selected tools: a tool_call naming an unknown or
already-called tool performs no invocation and the loop simply advances. -/
theorem run_called_nodup_subset (N : Nat) (select : String → List Tool)
    (llm : String → String → String) (jl : String → Option PyJson) (q : String) :
    (AgentRunner_runWith N select llm jl q).called.Nodup ∧
    ∀ n ∈ (AgentRunner_runWith N select llm jl q).called,
      n ∈ (select q).map Tool.name := by
  unfold AgentRunner_runWith
  split
  · refine ⟨List.nodup_nil, ?_⟩
    intro n hn
    simp at hn
  · have h := runLoop_called llm jl q (select q) N [] [] List.nodup_nil
      (by intro n hn; simp at hn)
    refine ⟨h.1, ?_⟩
    intro n hn
    obtain ⟨t, ht, rfl⟩ := h.2 n hn
    exact List.mem_map_of_mem Tool.name ht

/-- C7 witness: with the repeated tool_call oracle, "t1" is invoked exactly
once across the three steps (second attempt is skipped), and the
called-name set is contained in the selected tools' names. -/
theorem run_called_nodup_subset_witness :
    (AgentRunner_run selectA llmToolCall jlToolCall "q").called = ["t1"] ∧
    (AgentRunner_run selectA llmToolCall jlToolCall "q").called.Nodup ∧
    ∀ n ∈ (AgentRunner_run selectA llmToolCall jlToolCall "q").called,
      n ∈ (selectA "q").map Tool.name :=
  ⟨by decide,
   (run_called_nodup_subset 3 selectA llmToolCall jlToolCall "q").1,
   (run_called_nodup_subset 3 selectA llmToolCall jlToolCall "q").2⟩

/-- C8: pandas_fn turns every execution outcome into a text result and
never propagates an exception: the result variable's textual representation
if set, else the non-empty captured output, else the no-result message, and
on an execution exception the captured traceback prefixed with
"Error executing pandas code:". -/
theorem pandas_fn_absorbs_outcomes (llm : String → String → String)
    (pyExec : String → ExecOutcome) (schema_str fname query : String) :
    (∀ cap tb,
      pyExec (sanitizeCode
          (pyStripS (llm (pandasPrompt schema_str fname query) codingSystemPrompt)))
        = ExecOutcome.err cap tb →
      pandas_fn llm pyExec schema_str fname query
        = "Error executing pandas code:\n" ++ tb) ∧
    (∀ r cap,
      pyExec (sanitizeCode
          (pyStripS (llm (pandasPrompt schema_str fname query) codingSystemPrompt)))
        = ExecOutcome.ok (some r) cap →
      pandas_fn llm pyExec schema_str fname query = r) ∧
    (∀ cap,
      pyExec (sanitizeCode
          (pyStripS (llm (pandasPrompt schema_str fname query) codingSystemPrompt)))
        = ExecOutcome.ok none cap → pyStripS cap ≠ "" →
      pandas_fn llm pyExec schema_str fname query = pyStripS cap) ∧
    (∀ cap,
      pyExec (sanitizeCode
          (pyStripS (llm (pandasPrompt schema_str fname query) codingSystemPrompt)))
        = ExecOutcome.ok none cap → pyStripS cap = "" →
      pandas_fn llm pyExec schema_str fname query = noResultMsg) := by
  refine ⟨?_, ?_, ?_, ?_⟩
  · intro cap tb h
    unfold pandas_fn
    rw [h]
  · intro r cap h
    unfold pandas_fn
    rw [h]
  · intro cap h hne
    unfold pandas_fn
    rw [h]
    exact if_pos hne
  · intro cap h heq
    unfold pandas_fn
    rw [h]
    exact if_neg (fun hc => hc heq)

/-- C8 witness: a concrete generated analysis whose execution raises — the
tool's textual result is the captured traceback, not a propagated error. -/
theorem pandas_fn_absorbs_outcomes_witness :
    pandas_fn llmP pyExecErr "salary (int64)" "employees.csv" "average salary"
      = "Error executing pandas code:\n" ++ "ZeroDivisionError: division by zero" :=
  (pandas_fn_absorbs_outcomes llmP pyExecErr "salary (int64)" "employees.csv"
    "average salary").1 "" "ZeroDivisionError: division by zero" rfl
